import Mathlib

/-!
Verification development for the Scriptura repository (a single-file report
CLI in `scriptura.py`, plus a near-duplicate implementation in
`src/scriptura/cli.py`).  Python strings are modelled as `List Char`
(sequences of Unicode scalar values); Python's substring membership test
`pat in s` and `s.replace(pat, rep [, count])` are modelled character by
character below.
-/

namespace Scriptura

/-- Python strings are modelled as lists of Unicode characters. -/
abbrev Str := List Char

/-- View a Lean string literal as a model string. -/
def str (s : String) : Str := s.data

/-- Boolean prefix test: `isPre p s` is Python `s.startswith(p)`. -/
def isPre : Str → Str → Bool
  | [], _ => true
  | _ :: _, [] => false
  | a :: as, b :: bs => a == b && isPre as bs

/-- Python substring membership `pat in s`. -/
def occursIn (pat : Str) : Str → Bool
  | [] => isPre pat []
  | c :: t => isPre pat (c :: t) || occursIn pat t

/-- Worker for `replaceAll`, assuming a non-empty pattern: scan left to
right, replacing each leftmost non-overlapping occurrence of `pat`.  The
`Nat` argument counts matched characters still to be consumed without
being re-examined, which keeps the recursion structural. -/
def replAllGo (pat rep : Str) : Nat → Str → Str
  | _, [] => []
  | 0, c :: t =>
    if isPre pat (c :: t) then rep ++ replAllGo pat rep (pat.length - 1) t
    else c :: replAllGo pat rep 0 t
  | Nat.succ k, _ :: t => replAllGo pat rep k t

/-- Scan `s` replacing each leftmost non-overlapping occurrence of the
non-empty pattern `pat` by `rep`. -/
def replAll (pat rep s : Str) : Str := replAllGo pat rep 0 s

/-- Python `s.replace(pat, rep)` (all occurrences; the empty pattern
inserts `rep` at every gap, as CPython does). -/
def replaceAll (s pat rep : Str) : Str :=
  if pat.isEmpty then rep ++ s.foldr (fun c acc => c :: (rep ++ acc)) []
  else replAll pat rep s

/-- Worker for `replaceFirst`, assuming a non-empty pattern. -/
def replFirst (pat rep : Str) : Str → Str
  | [] => []
  | c :: t =>
    if isPre pat (c :: t) then rep ++ (c :: t).drop pat.length
    else c :: replFirst pat rep t

/-- Python `s.replace(pat, rep, 1)` (first occurrence only). -/
def replaceFirst (s pat rep : Str) : Str :=
  if pat.isEmpty then rep ++ s else replFirst pat rep s

/-- Python `"\n".join`-style interleaving: `intercalate sep texts`. -/
def joinSep (sep : Str) : List Str → Str
  | [] => []
  | [t] => t
  | t :: rest => t ++ sep ++ joinSep sep rest

/-! Model of `json.dumps` (default options, `ensure_ascii=True`) for the
values that `inject_boot_config` serialises: strings and lists of strings. -/

/-- Lower-case hexadecimal digit. -/
def hexDig (n : Nat) : Char :=
  if n < 10 then Char.ofNat (48 + n) else Char.ofNat (87 + n)

/-- A `\uXXXX` escape for a 16-bit code unit. -/
def uEscape (n : Nat) : Str :=
  [Char.ofNat 92, 'u', hexDig (n / 4096 % 16), hexDig (n / 256 % 16),
   hexDig (n / 16 % 16), hexDig (n % 16)]

/-- How CPython `json.dumps` (with its default `ensure_ascii=True`) renders
one character inside a string literal. -/
def jsonEscapeChar (c : Char) : Str :=
  if c = Char.ofNat 34 then [Char.ofNat 92, Char.ofNat 34]
  else if c = Char.ofNat 92 then [Char.ofNat 92, Char.ofNat 92]
  else if c = Char.ofNat 10 then [Char.ofNat 92, 'n']
  else if c = Char.ofNat 9 then [Char.ofNat 92, 't']
  else if c = Char.ofNat 13 then [Char.ofNat 92, 'r']
  else if c = Char.ofNat 8 then [Char.ofNat 92, 'b']
  else if c = Char.ofNat 12 then [Char.ofNat 92, 'f']
  else if c.toNat < 32 || 127 ≤ c.toNat then
    if c.toNat < 65536 then uEscape c.toNat
    else uEscape (55296 + (c.toNat - 65536) / 1024) ++
         uEscape (56320 + (c.toNat - 65536) % 1024)
  else [c]

/-- Python `json.dumps` of a string. -/
def jsonDumpsStr (s : Str) : Str :=
  Char.ofNat 34 :: s.foldr (fun c acc => jsonEscapeChar c ++ acc) [Char.ofNat 34]

/-- Python `json.dumps` of a list of strings (default separator `", "`). -/
def jsonDumpsList (l : List Str) : Str :=
  '[' :: (joinSep (str ", ") (l.map jsonDumpsStr) ++ [']'])

/-! Model of the configuration record (`Config` dataclass in
`scriptura.py`).  The `theme` mapping keys are the fixed roles used by
`override_theme_links`; an absent key is `none`.  Python truthiness of an
optional string (`None` and `""` are falsy) is `truthy` below. -/

/-- The `theme:` mapping of `config.yaml` restricted to the keys
`override_theme_links` reads (`general`, `numbering`, `footer`, `cover`,
`last`, `last-page`). -/
structure Theme where
  general : Option Str := none
  numbering : Option Str := none
  footer : Option Str := none
  cover : Option Str := none
  last : Option Str := none
  lastPage : Option Str := none
deriving DecidableEq

/-- The `Config` dataclass of `scriptura.py`. -/
structure Config where
  title : Str := []
  subtitle : Str := []
  prepared : Str := []
  kicker : Str := []
  sections : Option (List Str) := none
  theme : Option Theme := none

/-- Python truthiness of an optional string: `None` and `""` are falsy. -/
def truthy : Option Str → Bool
  | none => false
  | some s => !s.isEmpty

/-- Model of `apply_placeholders`: replace each token of the `PLACEHOLDERS` dict
(in its insertion order) by the corresponding config field.  The source's
`getattr(cfg, key) or ""` is the identity on the string fields. -/
def apply_placeholders (html : Str) (cfg : Config) : Str :=
  let h := replaceAll html (str "[TITLE]") cfg.title
  let h := replaceAll h (str "[SUBTITLE]") cfg.subtitle
  let h := replaceAll h (str "[PREPARED]") cfg.prepared
  let h := replaceAll h (str "[KICKER]") cfg.kicker
  h

/-- The `<script>` block built by `inject_boot_config` (the f-string at
lines 74–84 of `scriptura.py`); `cfg.sections or []` collapses `None` and
`[]` to `[]`, which is `Option.getD` here. -/
def bootBlock (cfg : Config) : Str :=
  str "\n<script>\nwindow.__CONFIG__ = \x7b\n  title: " ++ jsonDumpsStr cfg.title ++
  str ",\n  subtitle: " ++ jsonDumpsStr cfg.subtitle ++
  str ",\n  prepared: " ++ jsonDumpsStr cfg.prepared ++
  str ",\n  kicker: " ++ jsonDumpsStr cfg.kicker ++
  str ",\n  sections: " ++ jsonDumpsList (cfg.sections.getD []) ++
  str "\n\x7d;\n</script>\n"

/-- Model of `inject_boot_config`: insert the boot block before every `</head>`
(Python `str.replace` without a count replaces all occurrences). -/
def inject_boot_config (html : Str) (cfg : Config) : Str :=
  replaceAll html (str "</head>") (bootBlock cfg ++ str "\n</head>")

/-- The `href="..."` attribute text around a stylesheet location, as the
f-strings `f'href="{local}"'` / `f'href="{remote}"'` produce it. -/
def hrefEq (u : Str) : Str := str "href=\"" ++ u ++ str "\""

/-- One iteration of the loop in `override_theme_links`: `if remote:`
(both `None` and `""` are falsy) replace every `href="<local>"` by
`href="<remote>"`. -/
def applyOverride (h : Str) (loc : Str) (override : Option Str) : Str :=
  match override with
  | some remote =>
    if remote.isEmpty then h else replaceAll h (hrefEq loc) (hrefEq remote)
  | none => h

/-- Model of `override_theme_links`: apply the overrides of the `mapping` dict in
its insertion order; the last entry's override is Python's
`theme.get('last') or theme.get('last-page')`. -/
def override_theme_links (html : Str) (t : Theme) : Str :=
  let h := applyOverride html (str "style/general.css") t.general
  let h := applyOverride h (str "style/numbering.css") t.numbering
  let h := applyOverride h (str "style/footer.css") t.footer
  let h := applyOverride h (str "style/cover.css") t.cover
  applyOverride h (str "style/last-page.css")
    (if truthy t.last then t.last else t.lastPage)

/-- Model of `assemble_html`: placeholders, then boot-config injection, then (when
a theme mapping is present and non-empty) stylesheet overrides.  An empty
Python dict is falsy and behaves exactly like applying the overrides of an
all-`none` mapping, so `none` models both. -/
def assemble_html (cfg : Config) (wrapper : Str) : Str :=
  let h := apply_placeholders wrapper cfg
  let h := inject_boot_config h cfg
  match cfg.theme with
  | some t => override_theme_links h t
  | none => h

/-! Model of `discover_sections` (`scriptura.py` lines 25–30).  The glob
result enumerates in an unspecified filesystem order, so it is modelled as
an arbitrary input list of file names.  Python's `sorted` is a stable
sort, and any two stable sorts under the same total preorder agree, so it
is modelled by a stable insertion sort. -/

/-- Numeric value of a digit string (Python `int(...)`). -/
def natOfDigits (ds : Str) : Nat := ds.foldl (fun a c => 10 * a + (c.toNat - 48)) 0

/-- First component of the sort key: the value of the regex group in
`re.match(r"^(\d+)[-_]", name)` when it matches, else the sentinel
`1_000_000`.  The regex `\d` is modelled as ASCII digits. -/
def numKey (name : Str) : Nat :=
  let ds := name.takeWhile fun c => c.isDigit
  if ds.isEmpty then 1000000
  else
    match name.drop ds.length with
    | c :: _ => if c == '-' || c == '_' then natOfDigits ds else 1000000
    | [] => 1000000

/-- Python `str.lower()`, modelled on ASCII letters. -/
def lowerStr (s : Str) : Str := s.map Char.toLower

/-- Comparison by the key `(numKey name, name.lower())` with tuples and
strings compared as Python does (lexicographically by code point). -/
def keyLE (a b : Str) : Bool :=
  decide (numKey a < numKey b) ||
    (decide (numKey a = numKey b) && decide (lowerStr a ≤ lowerStr b))

/-- Insert `x` into `l` before the first element `y` with `le x y`; used
by the stable insertion sort. -/
def insertSorted (le : α → α → Bool) (x : α) : List α → List α
  | [] => [x]
  | y :: t => if le x y then x :: y :: t else y :: insertSorted le x t

/-- Stable insertion sort (each element is inserted before the tied
elements that followed it in the input, and after those that preceded
it). -/
def insertionSort (le : α → α → Bool) : List α → List α
  | [] => []
  | x :: t => insertSorted le x (insertionSort le t)

/-- Model of `discover_sections`: sort the glob listing by the key and prefix each
name with `sections/`. -/
def discover_sections (names : List Str) : List Str :=
  (insertionSort keyLE names).map (fun n => str "sections/" ++ n)

/-- Model of `find_sections` (`src/scriptura/cli.py` lines 16–17): plain
`sorted` over the glob listing, no key.  The globbed paths share their
directory, so the `Path` order reduces to case-sensitive file-name
order; `sorted` is again stable. -/
def find_sections (names : List Str) : List Str :=
  insertionSort (fun a b => decide (a ≤ b)) names

/-! Model of the `build` command (`scriptura.py` lines 269–314) and of
`export_pdf` (lines 111–126).  File reads are modelled by two lookup
functions: `fsMain s` is reading `(base_dir / s).resolve()` and `fsAlt s`
is reading the fallback `((base_dir / html_out).resolve().parent / s)`;
`none` means the path does not exist.  The browser side effects of a
successful `export_pdf` are outside the model; only whether the PDF step
runs, and the warnings it emits when Playwright is missing, are kept. -/

/-- The end marker searched for in step 5 of `build`. -/
def endMarker : Str := str "<section id=\"end\""

/-- The closing body tag used as fallback insertion point. -/
def bodyClose : Str := str "</body>"

/-- Step 5 of `build`: place `combined` before the first `endMarker`, or
before the first `</body>` when no marker occurs. -/
def insertCombined (assembled combined : Str) : Str :=
  if occursIn endMarker assembled = true then
    replaceFirst assembled endMarker (combined ++ str "\n" ++ endMarker)
  else
    replaceFirst assembled bodyClose (combined ++ str "\n" ++ bodyClose)

/-- Inputs of one `build` invocation. -/
structure BuildEnv where
  wrapper : Str
  cfg : Config
  sectionDir : List Str
  fsMain : Str → Option Str
  fsAlt : Str → Option Str
  playwright : Bool

/-- Step 1 of `build`: `if not cfg.sections:` (both `None` and `[]` are
falsy) discover sections on disk. -/
def sectionsUsed (env : BuildEnv) : List Str :=
  match env.cfg.sections with
  | some (s :: rest) => s :: rest
  | _ => discover_sections env.sectionDir

/-- Resolution of one section path: the primary location, then the
fallback next to the HTML output. -/
def resolveSection (env : BuildEnv) (s : Str) : Option Str :=
  match env.fsMain s with
  | some t => some t
  | none => env.fsAlt s

/-- The warning echoed for a section file found at neither location. -/
def warnMissing (s : Str) : Str := str "⚠️  Bulunamadı (atlanıyor): " ++ s

/-- Step 4 of `build`: the texts of the section files that resolve, in
order (missing ones are skipped). -/
def sectionTexts (env : BuildEnv) (l : List Str) : List Str :=
  l.filterMap (resolveSection env)

/-- The warnings emitted by step 4 of `build`, in order. -/
def missingWarnings (env : BuildEnv) (l : List Str) : List Str :=
  (l.filter fun s => (resolveSection env s).isNone).map warnMissing

/-- First warning of `export_pdf` when the Playwright import fails. -/
def playwrightWarn1 : Str :=
  str "⚠️  Playwright yok: `pip install playwright` ve `python -m playwright install chromium`"

/-- Second warning of `export_pdf` when the Playwright import fails. -/
def playwrightWarn2 : Str :=
  str "   Yine de HTML üretildi; PDF için tarayıcıdan Yazdır→PDF kaydedebilirsiniz."

/-- Model of `export_pdf`: if the Playwright import fails, warn twice and return
without writing a PDF; otherwise render the PDF.  Result: (was a PDF
written, warnings). -/
def export_pdf (playwright : Bool) : Bool × List Str :=
  if playwright then (true, []) else (false, [playwrightWarn1, playwrightWarn2])

/-- Observable outcome of one `build` invocation. -/
structure BuildResult where
  htmlOut : Option Str
  pdfOut : Bool
  warnings : List Str
  exitCode : Nat

/-- The html assembled by steps 2–3 of `build`: the runtime loader is
disabled by injecting a copy of the config whose `sections` is `[]`. -/
def assembledPre (env : BuildEnv) : Str :=
  assemble_html { env.cfg with sections := some [] } env.wrapper

/-- The whole `build` command.  The function body raises no `SystemExit`
after the config is loaded, so the exit code is 0. -/
def buildRun (env : BuildEnv) : BuildResult :=
  let secs := sectionsUsed env
  let combined := joinSep (str "\n") (sectionTexts env secs)
  let finalHtml := insertCombined (assembledPre env) combined
  let pdf := export_pdf env.playwright
  { htmlOut := some finalHtml
    pdfOut := pdf.1
    warnings := missingWarnings env secs ++ pdf.2
    exitCode := 0 }

/-- Outcome of one `build` invocation of the package implementation
(`src/scriptura/cli.py`). -/
structure CliBuildResult where
  htmlWritten : Bool
  exitCode : Nat
deriving DecidableEq

/-- Model of `build` in `src/scriptura/cli.py` at the granularity its PDF
step needs: with an empty section list it aborts before writing anything
(lines 89–90); otherwise the HTML is rendered and written, after which
`--pdf` with a failing Playwright import echoes an error and raises
`typer.Exit(1)` (lines 142–147). -/
def cliBuildRun (sectionsEmpty pdf playwright : Bool) : CliBuildResult :=
  if sectionsEmpty then { htmlWritten := false, exitCode := 1 }
  else { htmlWritten := true, exitCode := if pdf && !playwright then 1 else 0 }

/-! Model of the `lint` command (`scriptura.py` lines 318–366).  The
per-file checks have two branches: with BeautifulSoup (`use_bs4 = True`)
the file's parse tree is searched for a `<section>` element, an `<h1>`
among its descendants, and its stripped text; without it (`use_bs4 =
False`) the checks are plain substring tests.  BeautifulSoup itself is an
external library, so each file carries the node tree its parse yields
alongside the raw text.  The ordering check at lines 331–334 only echoes
a warning and records no error. -/

mutual

/-- An element or text node of a parsed HTML fragment. -/
inductive Node where
  | elem (tag : Str) (children : NodeList)
  | text (s : Str)

/-- A sequence of sibling nodes. -/
inductive NodeList where
  | nil
  | cons (hd : Node) (tl : NodeList)

end

mutual

/-- First element with the given tag at a node or among its descendants,
depth-first. -/
def findNode (tag : Str) : Node → Option Node
  | Node.text _ => none
  | Node.elem t ch =>
    if t = tag then some (Node.elem t ch) else findNodes tag ch

/-- First element with the given tag in a forest, depth-first: this is
`soup.find(tag)` on a parsed document. -/
def findNodes (tag : Str) : NodeList → Option Node
  | NodeList.nil => none
  | NodeList.cons n rest =>
    match findNode tag n with
    | some r => some r
    | none => findNodes tag rest

end

mutual

/-- Whether a node's text holds a non-whitespace character, i.e. whether
`get_text(strip=True)` is truthy for it. -/
def nodeHasText : Node → Bool
  | Node.text s => s.any fun c => !c.isWhitespace
  | Node.elem _ ch => nodesHaveText ch

/-- Whether some node of a forest has non-whitespace text. -/
def nodesHaveText : NodeList → Bool
  | NodeList.nil => false
  | NodeList.cons n rest => nodeHasText n || nodesHaveText rest

end

/-- The `report.html` wrapper written by the scaffold
(`SCAFFOLD_REPORT_HTML` in the source). -/
def SCAFFOLD_REPORT_HTML : Str :=
  str "<!doctype html>\n<html lang=\"tr\">\n<head>\n  <meta charset=\"utf-8\" />\n  <title>[TITLE]</title>\n\n" ++
  str "  <link rel=\"stylesheet\" href=\"style/general.css\" />\n  <link rel=\"stylesheet\" href=\"style/numbering.css\" />\n  <link rel=\"stylesheet\" href=\"style/footer.css\" />\n  <link rel=\"stylesheet\" href=\"style/cover.css\" />\n  <link rel=\"stylesheet\" href=\"style/last-page.css\" />\n\n" ++
  str "  <script>\n    // Paged.js başlamadan önce sections/*.html dosyalarını gövdeye ekle\n    window.PagedConfig = \x7b\n      before: async () => \x7b\n        const cfg = window.__CONFIG__ || \x7b\x7d;\n" ++
  str "        const t = document.getElementById(\"title\"); if (t) t.textContent = cfg.title || \"\";\n        const s = document.querySelector(\".subtitle\"); if (s) s.textContent = cfg.subtitle || \"\";\n" ++
  str "        const p = document.querySelector(\".prepared\"); if (p) p.textContent = cfg.prepared || \"\";\n        const k = document.querySelector(\".kicker\"); if (k) k.textContent = cfg.kicker || \"\";\n" ++
  str "        for (const file of (cfg.sections || [])) \x7b\n          try \x7b\n            const res = await fetch(file);\n            if (!res.ok) \x7b console.warn(\"Missing section:\", file); continue; \x7d\n" ++
  str "            const html = await res.text();\n            const host = document.createElement(\"div\");\n            host.innerHTML = html;\n            document.body.insertBefore(host, document.getElementById(\"end\"));\n" ++
  str "          \x7d catch (e) \x7b\n            console.warn(\"Fetch error for\", file, e);\n          \x7d\n        \x7d\n      \x7d\n    \x7d;\n  </script>\n  <script src=\"https://unpkg.com/pagedjs/dist/paged.polyfill.js\"></script>\n</head>\n<body>\n" ++
  str "  <section class=\"cover unnumbered\">\n    <div class=\"title-section\">\n      <div class=\"kicker\">[KICKER]</div>\n      <h1 id=\"title\">[TITLE]</h1>\n      <p class=\"subtitle\">[SUBTITLE]</p>\n      <div class=\"prepared\">[PREPARED]</div>\n    </div>\n  </section>\n\n" ++
  str "  <section id=\"end\" class=\"last-page unnumbered\">\n    <h1>Teşekkürler</h1>\n    <p>Okuduğunuz için teşekkürler.</p>\n  </section>\n</body>\n</html>\n"

/-- The `config.yaml` written by the scaffold (`SCAFFOLD_CONFIG`). -/
def SCAFFOLD_CONFIG : Str :=
  str "title: Deneme Raporu\nsubtitle: Modular report with Paged.js\nprepared: \"Yazar — 2025-08-18\"\nkicker: Internal Report\n" ++
  str "# sections:  # boşsa sections/*.html otomatik keşfedilir\n#   - sections/01-introduction.html\n# theme:\n#   general: \"https://.../general.css\"\n" ++
  str "#   numbering: \"https://.../numbering.css\"\n#   footer: \"https://.../footer.css\"\n#   cover: \"https://.../cover.css\"\n#   last: \"https://.../last-page.css\"\n"

/-- The three sample section files written by the scaffold
(`SAMPLE_SECTIONS`). -/
def SAMPLE_SECTIONS : List (Str × Str) :=
  [(str "01-introduction.html",
    str "<section class=\"page-break\">\n  <h1>Introduction</h1>\n  <p>Project goals, scope and context.</p>\n</section>\n"),
   (str "02-methodology.html",
    str "<section class=\"page-break\">\n  <h1>Methodology</h1>\n  <p>Approach, data and tools.</p>\n</section>\n"),
   (str "03-results.html",
    str "<section class=\"page-break\">\n  <h1>Results</h1>\n  <p>Key findings and figures.</p>\n</section>\n")]

/-- A report directory: subdirectory names and (file name, content)
pairs. -/
structure DirTree where
  dirs : List Str
  files : List (Str × Str)
deriving DecidableEq

/-- The fresh scaffold `init` creates. -/
def scaffoldTree : DirTree where
  dirs := [str "sections", str "style", str "images", str "diagrams", str "build"]
  files :=
    (str "report.html", SCAFFOLD_REPORT_HTML) ::
    (str "config.yaml", SCAFFOLD_CONFIG) ::
    ((SAMPLE_SECTIONS.map fun fc => (str "sections/" ++ fc.1, fc.2)) ++
     [(str ".gitignore", str "build/\nnode_modules/\n*.tmp.html\n.DS_Store\n")])

/-- Model of `init`: result is (exit status, the target directory afterwards).
`target` is the prior state of `./<name>` (`none` when absent). -/
def initRun (target : Option DirTree) (force : Bool) : Nat × Option DirTree :=
  match target with
  | some d => if force then (0, some scaffoldTree) else (1, some d)
  | none => (0, some scaffoldTree)

/-- The ordering the spec sentence describes, stated from its words: the
key, with full-key ties broken by the raw filename. -/
def keyThenNameLE (a b : Str) : Bool :=
  decide (numKey a < numKey b) ||
    (decide (numKey a = numKey b) &&
      (decide (lowerStr a < lowerStr b) ||
        (decide (lowerStr a = lowerStr b) && decide (a ≤ b))))

/-- Section discovery as the spec sentence describes it (ties broken by
filename), for comparison with `discover_sections`. -/
def discoverSectionsSpec (names : List Str) : List Str :=
  (insertionSort keyThenNameLE names).map (fun n => str "sections/" ++ n)


-- Sanity checks on the Python string model.
example : occursIn (str "bc") (str "abcd") = true := by decide
example : occursIn (str "bd") (str "abcd") = false := by decide
example : occursIn (str "") (str "") = true := by decide
example : replaceAll (str "abab") (str "ab") (str "X") = str "XX" := by decide
example : replaceAll (str "aaa") (str "aa") (str "b") = str "ba" := by decide
example : replaceAll (str "abc") (str "") (str "X") = str "XaXbXcX" := by decide
example : replaceFirst (str "abab") (str "ab") (str "X") = str "Xab" := by decide
example : replaceFirst (str "abc") (str "") (str "X") = str "Xabc" := by decide
example : joinSep (str "\n") [str "a", str "b"] = str "a\nb" := by decide

example : jsonDumpsList [] = str "[]" := by decide
example : jsonDumpsStr (str "a\"b") = str "\"a\\\"b\"" := by decide
example : jsonDumpsList [str "a", str "b"] = str "[\"a\", \"b\"]" := by decide

example : discover_sections [str "02-b.html", str "01-a.html", str "x.html"] =
    [str "sections/01-a.html", str "sections/02-b.html", str "sections/x.html"] := by
  decide

theorem replAllGo_skip (pat rep : Str) :
    ∀ (s : Str) (k : Nat), replAllGo pat rep k s = replAll pat rep (s.drop k) := by
  intro s
  induction s with
  | nil => intro k; cases k <;> rfl
  | cons c t ih =>
    intro k
    cases k with
    | zero => rfl
    | succ k => simpa [replAllGo, replAll] using ih k

theorem replAll_cons (pat rep : Str) (c : Char) (t : Str) :
    replAll pat rep (c :: t) =
      if isPre pat (c :: t) then rep ++ replAll pat rep (t.drop (pat.length - 1))
      else c :: replAll pat rep t := by
  show replAllGo pat rep 0 (c :: t) = _
  rw [replAllGo]
  by_cases h : isPre pat (c :: t) = true
  · rw [if_pos h, if_pos h, replAllGo_skip]
  · rw [if_neg h, if_neg h]
    rfl

/-! Basic lemmas about the string model. -/

theorem isPre_iff (p s : Str) : isPre p s = true ↔ ∃ t, s = p ++ t := by
  induction p generalizing s with
  | nil => simp [isPre]
  | cons a as ih =>
    cases s with
    | nil =>
      simp [isPre]
    | cons b bs =>
      simp only [isPre, Bool.and_eq_true, beq_iff_eq, ih]
      constructor
      · rintro ⟨rfl, t, rfl⟩
        exact ⟨t, rfl⟩
      · rintro ⟨t, h⟩
        cases h
        exact ⟨rfl, t, rfl⟩

theorem isPre_append (p t : Str) : isPre p (p ++ t) = true :=
  (isPre_iff p (p ++ t)).2 ⟨t, rfl⟩

theorem replAll_of_not_occurs {pat : Str} (rep : Str) :
    ∀ {s : Str}, occursIn pat s = false → replAll pat rep s = s := by
  intro s
  induction s with
  | nil => intro _; rfl
  | cons c t ih =>
    intro h
    simp only [occursIn, Bool.or_eq_false_iff] at h
    rw [replAll_cons, if_neg (by simp [h.1]), ih h.2]

theorem replFirst_of_not_occurs {pat : Str} (rep : Str) :
    ∀ {s : Str}, occursIn pat s = false → replFirst pat rep s = s := by
  intro s
  induction s with
  | nil => intro _; rfl
  | cons c t ih =>
    intro h
    simp only [occursIn, Bool.or_eq_false_iff] at h
    rw [replFirst, if_neg (by simp [h.1]), ih h.2]

theorem occursIn_nonempty_ne_nil {pat : Str} (h : pat ≠ []) :
    occursIn pat [] = false := by
  cases pat with
  | nil => exact absurd rfl h
  | cons a as => rfl

theorem replaceAll_of_not_occurs {s pat rep : Str}
    (h : occursIn pat s = false) : replaceAll s pat rep = s := by
  have hpat : pat ≠ [] := by
    intro he
    subst he
    cases s with
    | nil => simp [occursIn, isPre] at h
    | cons c t => simp [occursIn, isPre] at h
  rw [replaceAll, if_neg (by simpa [List.isEmpty_iff] using hpat)]
  exact replAll_of_not_occurs rep h

theorem replaceFirst_of_not_occurs {s pat rep : Str}
    (h : occursIn pat s = false) : replaceFirst s pat rep = s := by
  have hpat : pat ≠ [] := by
    intro he
    subst he
    cases s with
    | nil => simp [occursIn, isPre] at h
    | cons c t => simp [occursIn, isPre] at h
  rw [replaceFirst, if_neg (by simpa [List.isEmpty_iff] using hpat)]
  exact replFirst_of_not_occurs rep h

/-- A true substring test yields a first-occurrence decomposition: the
string splits as `pre ++ pat ++ suf` with no occurrence of `pat` starting
inside `pre`. -/
theorem occursIn_first_decomp {pat s : Str} (h : occursIn pat s = true) :
    ∃ pre suf, s = pre ++ (pat ++ suf) ∧
      ∀ i, i < pre.length → isPre pat (s.drop i) = false := by
  induction s with
  | nil =>
    have hp : pat = [] := by
      cases pat with
      | nil => rfl
      | cons a as => simp [occursIn, isPre] at h
    exact ⟨[], [], by simp [hp], by intro i hi; simp at hi⟩
  | cons c t ih =>
    cases hp : isPre pat (c :: t) with
    | true =>
      obtain ⟨u, hu⟩ := (isPre_iff pat (c :: t)).1 hp
      exact ⟨[], u, by simpa using hu, by intro i hi; simp at hi⟩
    | false =>
      have ht : occursIn pat t = true := by
        have := h
        rw [occursIn, hp] at this
        simpa using this
      obtain ⟨pre, suf, heq, hf⟩ := ih ht
      refine ⟨c :: pre, suf, by simp [heq], ?_⟩
      intro i hi
      cases i with
      | zero => simpa using hp
      | succ j =>
        have hj : j < pre.length := by simpa using hi
        simpa [heq] using hf j hj

/-- Replacing the first occurrence: if the string splits as
`pre ++ pat ++ suf` with no occurrence of `pat` starting inside `pre`,
then `replace(pat, rep, 1)` yields `pre ++ rep ++ suf`. -/
theorem replaceFirst_append {pat : Str} (rep : Str) (hp : pat ≠ []) :
    ∀ (pre suf : Str),
      (∀ i, i < pre.length → isPre pat ((pre ++ (pat ++ suf)).drop i) = false) →
      replaceFirst (pre ++ (pat ++ suf)) pat rep = pre ++ (rep ++ suf) := by
  have hne : ¬ pat.isEmpty = true := by simpa [List.isEmpty_iff] using hp
  intro pre
  induction pre with
  | nil =>
    intro suf _
    rw [replaceFirst, if_neg hne]
    obtain ⟨a, as, rfl⟩ : ∃ a as, pat = a :: as := by
      cases pat with
      | nil => exact absurd rfl hp
      | cons a as => exact ⟨a, as, rfl⟩
    rw [List.nil_append, List.cons_append, replFirst,
      if_pos (by simpa using isPre_append (a :: as) suf), ← List.cons_append,
      List.drop_left]
    rfl
  | cons c pre' ih =>
    intro suf h
    rw [replaceFirst, if_neg hne] at *
    have h0 : isPre pat (c :: (pre' ++ (pat ++ suf))) = false := by
      simpa using h 0 (by simp)
    rw [List.cons_append, replFirst, if_neg (by simp [h0])]
    have ih' := ih suf (by
      intro i hi
      simpa using h (i + 1) (by simpa using Nat.succ_lt_succ hi))
    rw [replaceFirst, if_neg hne] at ih'
    rw [ih']
    rfl

/-- Replacing all occurrences when there is exactly one: if the string
splits as `pre ++ pat ++ suf`, no occurrence of `pat` starts inside `pre`,
and `pat` does not occur in `suf`, then `replace(pat, rep)` yields
`pre ++ rep ++ suf`. -/
theorem replaceAll_append {pat : Str} (rep : Str) (hp : pat ≠ []) :
    ∀ (pre suf : Str),
      (∀ i, i < pre.length → isPre pat ((pre ++ (pat ++ suf)).drop i) = false) →
      occursIn pat suf = false →
      replaceAll (pre ++ (pat ++ suf)) pat rep = pre ++ (rep ++ suf) := by
  have hne : ¬ pat.isEmpty = true := by simpa [List.isEmpty_iff] using hp
  intro pre
  induction pre with
  | nil =>
    intro suf _ hsuf
    rw [replaceAll, if_neg hne]
    obtain ⟨a, as, rfl⟩ : ∃ a as, pat = a :: as := by
      cases pat with
      | nil => exact absurd rfl hp
      | cons a as => exact ⟨a, as, rfl⟩
    rw [List.nil_append, List.cons_append, replAll_cons,
      if_pos (by simpa using isPre_append (a :: as) suf)]
    have hdrop : (as ++ suf).drop ((a :: as).length - 1) = suf := by
      simp [List.drop_left as suf]
    rw [hdrop, replAll_of_not_occurs rep hsuf]
    rfl
  | cons c pre' ih =>
    intro suf h hsuf
    have h0 : isPre pat (c :: (pre' ++ (pat ++ suf))) = false := by
      simpa using h 0 (by simp)
    rw [replaceAll, if_neg hne, List.cons_append, replAll_cons,
      if_neg (by simp [h0])]
    have ih' := ih suf (by
      intro i hi
      simpa using h (i + 1) (by simpa using Nat.succ_lt_succ hi)) hsuf
    rw [replaceAll, if_neg hne] at ih'
    rw [ih']
    rfl

theorem insertSorted_perm (le : α → α → Bool) (x : α) :
    ∀ l : List α, (insertSorted le x l).Perm (x :: l) := by
  intro l
  induction l with
  | nil => exact List.Perm.refl _
  | cons y t ih =>
    rw [insertSorted]
    by_cases h : le x y = true
    · rw [if_pos h]
    · rw [if_neg h]
      exact (ih.cons y).trans (List.Perm.swap x y t)

theorem insertionSort_perm (le : α → α → Bool) :
    ∀ l : List α, (insertionSort le l).Perm l := by
  intro l
  induction l with
  | nil => exact List.Perm.refl _
  | cons x t ih =>
    exact (insertSorted_perm le x (insertionSort le t)).trans (ih.cons x)

theorem insertSorted_pairwise (le : α → α → Bool)
    (htrans : ∀ a b c, le a b = true → le b c = true → le a c = true)
    (htot : ∀ a b, le a b = true ∨ le b a = true) (x : α) :
    ∀ l : List α, l.Pairwise (fun a b => le a b = true) →
      (insertSorted le x l).Pairwise (fun a b => le a b = true) := by
  intro l
  induction l with
  | nil => intro _; simp [insertSorted]
  | cons y t ih =>
    intro hp
    rw [List.pairwise_cons] at hp
    rw [insertSorted]
    by_cases h : le x y = true
    · rw [if_pos h]
      refine List.Pairwise.cons ?_ (List.Pairwise.cons hp.1 hp.2)
      intro z hz
      rcases List.mem_cons.1 hz with hzy | hzt
      · exact hzy ▸ h
      · exact htrans x y z h (hp.1 z hzt)
    · rw [if_neg h]
      refine List.Pairwise.cons ?_ (ih hp.2)
      intro z hz
      have hz' : z ∈ x :: t := (insertSorted_perm le x t).mem_iff.1 hz
      rcases List.mem_cons.1 hz' with hzx | hzt
      · rw [hzx]
        rcases htot x y with h' | h'
        · exact absurd h' h
        · exact h'
      · exact hp.1 z hzt

theorem insertionSort_pairwise (le : α → α → Bool)
    (htrans : ∀ a b c, le a b = true → le b c = true → le a c = true)
    (htot : ∀ a b, le a b = true ∨ le b a = true) :
    ∀ l : List α, (insertionSort le l).Pairwise (fun a b => le a b = true) := by
  intro l
  induction l with
  | nil => simp [insertionSort]
  | cons x t ih => exact insertSorted_pairwise le htrans htot x _ ih

theorem keyLE_trans : ∀ a b c, keyLE a b = true → keyLE b c = true → keyLE a c = true := by
  intro a b c hab hbc
  simp only [keyLE, Bool.or_eq_true, Bool.and_eq_true, decide_eq_true_eq] at hab hbc ⊢
  rcases hab with h1 | ⟨h1, h1'⟩ <;> rcases hbc with h2 | ⟨h2, h2'⟩
  · exact Or.inl (by omega)
  · exact Or.inl (by omega)
  · exact Or.inl (by omega)
  · exact Or.inr ⟨by omega, le_trans h1' h2'⟩

theorem keyLE_total : ∀ a b, keyLE a b = true ∨ keyLE b a = true := by
  intro a b
  simp only [keyLE, Bool.or_eq_true, Bool.and_eq_true, decide_eq_true_eq]
  rcases Nat.lt_trichotomy (numKey a) (numKey b) with h | h | h
  · exact Or.inl (Or.inl h)
  · rcases le_total (lowerStr a) (lowerStr b) with h' | h'
    · exact Or.inl (Or.inr ⟨h, h'⟩)
    · exact Or.inr (Or.inr ⟨h.symm, h'⟩)
  · exact Or.inr (Or.inl h)

theorem occursIn_append_right (pat a b : Str) (h : occursIn pat b = true) :
    occursIn pat (a ++ b) = true := by
  induction a with
  | nil => exact h
  | cons c a' ih => simp [occursIn, ih]

/-- C8: when the target directory exists and `--force` is absent, `init`
aborts with exit status 1 leaving the directory untouched; with `--force`
the directory is replaced by the fresh scaffold. -/
theorem init_force_behaviour :
    ∀ d : DirTree,
      initRun (some d) false = (1, some d) ∧
      (initRun (some d) false).1 ≠ 0 ∧
      initRun (some d) true = (0, some scaffoldTree) := by
  intro d
  exact ⟨rfl, by simp [initRun], rfl⟩

/-- Counterexample to C3: in the package implementation, a build that
requests PDF export writes the HTML but then aborts with exit status 1
when Playwright is absent, so there the missing PDF dependency is
fatal. -/
theorem cli_build_pdf_missing_playwright_fatal :
    cliBuildRun false true false = { htmlWritten := true, exitCode := 1 } ∧
    (cliBuildRun false true false).exitCode ≠ 0 := by
  exact ⟨rfl, by decide⟩

/-- C3 (amended): the single-file build degrades gracefully without
Playwright — exit 0, HTML written, PDF skipped, two warnings — while the
package implementation writes the HTML but exits 1 when `--pdf` is
requested without Playwright, and exits 0 whenever the PDF step is not
requested or Playwright is present. -/
theorem build_playwright_missing_behaviour :
    (∀ env : BuildEnv,
      (buildRun { env with playwright := false }).exitCode = 0 ∧
      (buildRun { env with playwright := false }).pdfOut = false ∧
      (buildRun { env with playwright := false }).htmlOut =
        some (insertCombined (assembledPre env)
          (joinSep (str "\n") (sectionTexts env (sectionsUsed env)))) ∧
      playwrightWarn1 ∈ (buildRun { env with playwright := false }).warnings ∧
      export_pdf false = (false, [playwrightWarn1, playwrightWarn2])) ∧
    (∀ playwright : Bool,
      (cliBuildRun false false playwright).exitCode = 0 ∧
      (cliBuildRun false false playwright).htmlWritten = true) ∧
    ((cliBuildRun false true true).exitCode = 0 ∧
      (cliBuildRun false true true).htmlWritten = true) ∧
    cliBuildRun false true false = { htmlWritten := true, exitCode := 1 } := by
  refine ⟨?_, ?_, ⟨rfl, rfl⟩, rfl⟩
  · intro env
    refine ⟨rfl, rfl, rfl, ?_, rfl⟩
    simp [buildRun, export_pdf]
  · intro playwright
    cases playwright <;> exact ⟨rfl, rfl⟩

/-- C9: the config snapshot injected by `build` always carries
`sections: []`: the written HTML is assembled from a copy of the config
whose `sections` is `[]`, and the boot block of such a config contains the
text `sections: []`. -/
theorem build_boot_sections_always_empty :
    ∀ env : BuildEnv,
      (buildRun env).htmlOut =
        some (insertCombined (assemble_html { env.cfg with sections := some [] } env.wrapper)
          (joinSep (str "\n") (sectionTexts env (sectionsUsed env)))) ∧
      (∀ cfg : Config,
        occursIn (str "sections: []") (bootBlock { cfg with sections := some [] }) = true) := by
  intro env
  refine ⟨rfl, ?_⟩
  intro cfg
  simp only [bootBlock, List.append_assoc]
  apply occursIn_append_right
  apply occursIn_append_right
  apply occursIn_append_right
  apply occursIn_append_right
  apply occursIn_append_right
  apply occursIn_append_right
  apply occursIn_append_right
  apply occursIn_append_right
  decide

/-- C10: when the assembled wrapper contains neither the end marker nor a
closing body tag, the combined section content is silently dropped: the
written HTML equals the wrapper as assembled, the exit status is 0, and
the warning list gains nothing beyond the missing-section and PDF
warnings. -/
theorem build_no_marker_no_body_drops_sections :
    ∀ env : BuildEnv,
      occursIn endMarker (assembledPre env) = false →
      occursIn bodyClose (assembledPre env) = false →
      (buildRun env).htmlOut = some (assembledPre env) ∧
      (buildRun env).exitCode = 0 ∧
      (buildRun env).warnings =
        missingWarnings env (sectionsUsed env) ++ (export_pdf env.playwright).2 := by
  intro env hm hb
  refine ⟨?_, rfl, rfl⟩
  show some (insertCombined (assembledPre env) _) = _
  rw [insertCombined, if_neg (by simp [hm]), replaceFirst_of_not_occurs hb]

/-- Closed instance of C10 at a wrapper with no marker and no body tag. -/
theorem build_no_marker_no_body_drops_sections_witness :
    occursIn endMarker (assembledPre ⟨str "<html>x", {}, [], fun _ => none, fun _ => none, false⟩) = false ∧
    occursIn bodyClose (assembledPre ⟨str "<html>x", {}, [], fun _ => none, fun _ => none, false⟩) = false ∧
    ((buildRun ⟨str "<html>x", {}, [], fun _ => none, fun _ => none, false⟩).htmlOut =
      some (assembledPre ⟨str "<html>x", {}, [], fun _ => none, fun _ => none, false⟩) ∧
     (buildRun ⟨str "<html>x", {}, [], fun _ => none, fun _ => none, false⟩).exitCode = 0 ∧
     (buildRun ⟨str "<html>x", {}, [], fun _ => none, fun _ => none, false⟩).warnings =
       missingWarnings ⟨str "<html>x", {}, [], fun _ => none, fun _ => none, false⟩
         (sectionsUsed ⟨str "<html>x", {}, [], fun _ => none, fun _ => none, false⟩) ++
       (export_pdf false).2) :=
  ⟨by decide, by decide,
   build_no_marker_no_body_drops_sections
     ⟨str "<html>x", {}, [], fun _ => none, fun _ => none, false⟩ (by decide) (by decide)⟩

/-- C7: placeholder substitution leaves a token-free string unchanged, so
applying it twice equals applying it once, whatever the config values. -/
theorem apply_placeholders_token_free_id :
    ∀ (s : Str) (cfg : Config),
      occursIn (str "[TITLE]") s = false →
      occursIn (str "[SUBTITLE]") s = false →
      occursIn (str "[PREPARED]") s = false →
      occursIn (str "[KICKER]") s = false →
      apply_placeholders s cfg = s ∧
      apply_placeholders (apply_placeholders s cfg) cfg = apply_placeholders s cfg := by
  intro s cfg h1 h2 h3 h4
  have hid : apply_placeholders s cfg = s := by
    simp only [apply_placeholders]
    rw [replaceAll_of_not_occurs h1, replaceAll_of_not_occurs h2,
      replaceAll_of_not_occurs h3, replaceAll_of_not_occurs h4]
  refine ⟨hid, ?_⟩
  rw [hid]
  exact hid

/-- Closed instance of C7 on a token-free string. -/
theorem apply_placeholders_token_free_id_witness :
    occursIn (str "[TITLE]") (str "<p>hello</p>") = false ∧
    occursIn (str "[SUBTITLE]") (str "<p>hello</p>") = false ∧
    occursIn (str "[PREPARED]") (str "<p>hello</p>") = false ∧
    occursIn (str "[KICKER]") (str "<p>hello</p>") = false ∧
    (apply_placeholders (str "<p>hello</p>") { title := str "T" } = str "<p>hello</p>" ∧
     apply_placeholders (apply_placeholders (str "<p>hello</p>") { title := str "T" })
        { title := str "T" } =
       apply_placeholders (str "<p>hello</p>") { title := str "T" }) :=
  ⟨by decide, by decide, by decide, by decide,
   apply_placeholders_token_free_id (str "<p>hello</p>") { title := str "T" }
     (by decide) (by decide) (by decide) (by decide)⟩

/-- C5: a configured section file found at neither location produces its
warning, is skipped, and the build still writes the HTML assembled from
the sections that do resolve, exiting 0. -/
theorem build_missing_section_skipped :
    ∀ (env : BuildEnv) (s : Str),
      s ∈ sectionsUsed env →
      resolveSection env s = none →
      warnMissing s ∈ (buildRun env).warnings ∧
      (buildRun env).exitCode = 0 ∧
      (buildRun env).htmlOut =
        some (insertCombined (assembledPre env)
          (joinSep (str "\n") ((sectionsUsed env).filterMap (resolveSection env)))) := by
  intro env s hmem hnone
  refine ⟨?_, rfl, rfl⟩
  show warnMissing s ∈ missingWarnings env (sectionsUsed env) ++ _
  apply List.mem_append_left
  apply List.mem_map.2
  refine ⟨s, ?_, rfl⟩
  apply List.mem_filter.2
  exact ⟨hmem, by simp [hnone]⟩

/-- Closed instance of C5 with one configured section that is missing on
disk. -/
theorem build_missing_section_skipped_witness :
    (str "a.html") ∈ sectionsUsed ⟨str "x", { sections := some [str "a.html"] }, [],
        fun _ => none, fun _ => none, true⟩ ∧
    resolveSection ⟨str "x", { sections := some [str "a.html"] }, [],
        fun _ => none, fun _ => none, true⟩ (str "a.html") = none ∧
    (warnMissing (str "a.html") ∈
      (buildRun ⟨str "x", { sections := some [str "a.html"] }, [],
        fun _ => none, fun _ => none, true⟩).warnings ∧
     (buildRun ⟨str "x", { sections := some [str "a.html"] }, [],
        fun _ => none, fun _ => none, true⟩).exitCode = 0 ∧
     (buildRun ⟨str "x", { sections := some [str "a.html"] }, [],
        fun _ => none, fun _ => none, true⟩).htmlOut =
       some (insertCombined (assembledPre ⟨str "x", { sections := some [str "a.html"] }, [],
          fun _ => none, fun _ => none, true⟩)
         (joinSep (str "\n")
           ((sectionsUsed ⟨str "x", { sections := some [str "a.html"] }, [],
              fun _ => none, fun _ => none, true⟩).filterMap
             (resolveSection ⟨str "x", { sections := some [str "a.html"] }, [],
                fun _ => none, fun _ => none, true⟩))))) :=
  ⟨by decide, by decide,
   build_missing_section_skipped
     ⟨str "x", { sections := some [str "a.html"] }, [], fun _ => none, fun _ => none, true⟩
     (str "a.html") (by decide) (by decide)⟩

/-- C1: `build` inserts the newline-joined section texts exactly once,
immediately before the first occurrence of the end marker (with a newline
separating them from the marker); with no marker, before the first closing
body tag; and the written HTML is exactly this insertion applied to the
assembled wrapper. -/
theorem build_inserts_sections_before_marker :
    ∀ (assembled combined : Str),
      (occursIn endMarker assembled = true →
        ∃ pre suf, assembled = pre ++ (endMarker ++ suf) ∧
          (∀ i, i < pre.length → isPre endMarker (assembled.drop i) = false) ∧
          insertCombined assembled combined =
            pre ++ (combined ++ (str "\n" ++ (endMarker ++ suf)))) ∧
      (occursIn endMarker assembled = false → occursIn bodyClose assembled = true →
        ∃ pre suf, assembled = pre ++ (bodyClose ++ suf) ∧
          (∀ i, i < pre.length → isPre bodyClose (assembled.drop i) = false) ∧
          insertCombined assembled combined =
            pre ++ (combined ++ (str "\n" ++ (bodyClose ++ suf)))) ∧
      (∀ env : BuildEnv,
        (buildRun env).htmlOut =
          some (insertCombined (assembledPre env)
            (joinSep (str "\n") (sectionTexts env (sectionsUsed env))))) := by
  intro assembled combined
  refine ⟨?_, ?_, fun _ => rfl⟩
  · intro h
    obtain ⟨pre, suf, heq, hfirst⟩ := occursIn_first_decomp h
    refine ⟨pre, suf, heq, hfirst, ?_⟩
    have hfirst' : ∀ i, i < pre.length →
        isPre endMarker ((pre ++ (endMarker ++ suf)).drop i) = false := by
      intro i hi
      rw [← heq]
      exact hfirst i hi
    have h2 : replaceFirst (pre ++ (endMarker ++ suf)) endMarker
        (combined ++ str "\n" ++ endMarker) =
        pre ++ ((combined ++ str "\n" ++ endMarker) ++ suf) :=
      replaceFirst_append (combined ++ str "\n" ++ endMarker) (by decide) pre suf hfirst'
    rw [insertCombined, if_pos h, heq, h2]
    simp [List.append_assoc]
  · intro h hb
    obtain ⟨pre, suf, heq, hfirst⟩ := occursIn_first_decomp hb
    refine ⟨pre, suf, heq, hfirst, ?_⟩
    have hfirst' : ∀ i, i < pre.length →
        isPre bodyClose ((pre ++ (bodyClose ++ suf)).drop i) = false := by
      intro i hi
      rw [← heq]
      exact hfirst i hi
    have h2 : replaceFirst (pre ++ (bodyClose ++ suf)) bodyClose
        (combined ++ str "\n" ++ bodyClose) =
        pre ++ ((combined ++ str "\n" ++ bodyClose) ++ suf) :=
      replaceFirst_append (combined ++ str "\n" ++ bodyClose) (by decide) pre suf hfirst'
    rw [insertCombined, if_neg (by simp [h]), heq, h2]
    simp [List.append_assoc]

/-- Closed instance of C1 on a wrapper containing the end marker. -/
theorem build_inserts_sections_before_marker_witness :
    occursIn endMarker (str "<body><section id=\"end\">T</section></body>") = true ∧
    (∃ pre suf,
      (str "<body><section id=\"end\">T</section></body>") = pre ++ (endMarker ++ suf) ∧
      (∀ i, i < pre.length →
        isPre endMarker ((str "<body><section id=\"end\">T</section></body>").drop i) = false) ∧
      insertCombined (str "<body><section id=\"end\">T</section></body>") (str "<sec/>") =
        pre ++ (str "<sec/>" ++ (str "\n" ++ (endMarker ++ suf)))) :=
  ⟨by decide,
   (build_inserts_sections_before_marker
     (str "<body><section id=\"end\">T</section></body>") (str "<sec/>")).1 (by decide)⟩

theorem applyOverride_not_occurs (h loc : Str) (o : Option Str)
    (hno : occursIn (hrefEq loc) h = false) : applyOverride h loc o = h := by
  cases o with
  | none => rfl
  | some r =>
    simp only [applyOverride]
    split
    · rfl
    · exact replaceAll_of_not_occurs hno

/-- C6: the theme override touches nothing but the five known stylesheet
href texts: a wrapper containing none of them is returned verbatim for
every theme mapping, and in a wrapper that contains one of them once, an
override for that role rewrites exactly that href while the surrounding
text (including any other href attributes it holds) is returned
verbatim. -/
theorem override_theme_links_frame_effect :
    (∀ (html : Str) (t : Theme),
      occursIn (hrefEq (str "style/general.css")) html = false →
      occursIn (hrefEq (str "style/numbering.css")) html = false →
      occursIn (hrefEq (str "style/footer.css")) html = false →
      occursIn (hrefEq (str "style/cover.css")) html = false →
      occursIn (hrefEq (str "style/last-page.css")) html = false →
      override_theme_links html t = html) ∧
    (∀ (pre post g : Str), g ≠ [] →
      (∀ i, i < pre.length →
        isPre (hrefEq (str "style/general.css"))
          ((pre ++ (hrefEq (str "style/general.css") ++ post)).drop i) = false) →
      occursIn (hrefEq (str "style/general.css")) post = false →
      override_theme_links (pre ++ (hrefEq (str "style/general.css") ++ post))
        { general := some g } = pre ++ (hrefEq g ++ post)) ∧
    (∀ (pre post g : Str), g ≠ [] →
      (∀ i, i < pre.length →
        isPre (hrefEq (str "style/numbering.css"))
          ((pre ++ (hrefEq (str "style/numbering.css") ++ post)).drop i) = false) →
      occursIn (hrefEq (str "style/numbering.css")) post = false →
      override_theme_links (pre ++ (hrefEq (str "style/numbering.css") ++ post))
        { numbering := some g } = pre ++ (hrefEq g ++ post)) ∧
    (∀ (pre post g : Str), g ≠ [] →
      (∀ i, i < pre.length →
        isPre (hrefEq (str "style/footer.css"))
          ((pre ++ (hrefEq (str "style/footer.css") ++ post)).drop i) = false) →
      occursIn (hrefEq (str "style/footer.css")) post = false →
      override_theme_links (pre ++ (hrefEq (str "style/footer.css") ++ post))
        { footer := some g } = pre ++ (hrefEq g ++ post)) ∧
    (∀ (pre post g : Str), g ≠ [] →
      (∀ i, i < pre.length →
        isPre (hrefEq (str "style/cover.css"))
          ((pre ++ (hrefEq (str "style/cover.css") ++ post)).drop i) = false) →
      occursIn (hrefEq (str "style/cover.css")) post = false →
      override_theme_links (pre ++ (hrefEq (str "style/cover.css") ++ post))
        { cover := some g } = pre ++ (hrefEq g ++ post)) ∧
    (∀ (pre post g : Str), g ≠ [] →
      (∀ i, i < pre.length →
        isPre (hrefEq (str "style/last-page.css"))
          ((pre ++ (hrefEq (str "style/last-page.css") ++ post)).drop i) = false) →
      occursIn (hrefEq (str "style/last-page.css")) post = false →
      override_theme_links (pre ++ (hrefEq (str "style/last-page.css") ++ post))
        { lastPage := some g } = pre ++ (hrefEq g ++ post)) := by
  have heffect : ∀ (loc pre post g : Str), g ≠ [] →
      (∀ i, i < pre.length →
        isPre (hrefEq loc) ((pre ++ (hrefEq loc ++ post)).drop i) = false) →
      occursIn (hrefEq loc) post = false →
      hrefEq loc ≠ [] →
      applyOverride (pre ++ (hrefEq loc ++ post)) loc (some g) =
        pre ++ (hrefEq g ++ post) := by
    intro loc pre post g hg hfirst hpost hne
    simp only [applyOverride]
    rw [if_neg (by simpa [List.isEmpty_iff] using hg)]
    exact replaceAll_append (hrefEq g) hne pre post hfirst hpost
  refine ⟨?_, ?_, ?_, ?_, ?_, ?_⟩
  · intro html t h1 h2 h3 h4 h5
    simp only [override_theme_links]
    rw [applyOverride_not_occurs html _ t.general h1,
      applyOverride_not_occurs html _ t.numbering h2,
      applyOverride_not_occurs html _ t.footer h3,
      applyOverride_not_occurs html _ t.cover h4,
      applyOverride_not_occurs html _ _ h5]
  · intro pre post g hg hfirst hpost
    show applyOverride (pre ++ (hrefEq (str "style/general.css") ++ post))
      (str "style/general.css") (some g) = pre ++ (hrefEq g ++ post)
    exact heffect _ pre post g hg hfirst hpost (by decide)
  · intro pre post g hg hfirst hpost
    show applyOverride (pre ++ (hrefEq (str "style/numbering.css") ++ post))
      (str "style/numbering.css") (some g) = pre ++ (hrefEq g ++ post)
    exact heffect _ pre post g hg hfirst hpost (by decide)
  · intro pre post g hg hfirst hpost
    show applyOverride (pre ++ (hrefEq (str "style/footer.css") ++ post))
      (str "style/footer.css") (some g) = pre ++ (hrefEq g ++ post)
    exact heffect _ pre post g hg hfirst hpost (by decide)
  · intro pre post g hg hfirst hpost
    show applyOverride (pre ++ (hrefEq (str "style/cover.css") ++ post))
      (str "style/cover.css") (some g) = pre ++ (hrefEq g ++ post)
    exact heffect _ pre post g hg hfirst hpost (by decide)
  · intro pre post g hg hfirst hpost
    show applyOverride (pre ++ (hrefEq (str "style/last-page.css") ++ post))
      (str "style/last-page.css") (some g) = pre ++ (hrefEq g ++ post)
    exact heffect _ pre post g hg hfirst hpost (by decide)

/-- Closed instance of C6: one general-stylesheet link between unrelated
text (holding another href) is rewritten and the rest kept verbatim. -/
theorem override_theme_links_frame_effect_witness :
    (str "https://cdn/x.css" : Str) ≠ [] ∧
    (∀ i, i < (str "<link href=\"a.css\" ").length →
      isPre (hrefEq (str "style/general.css"))
        (((str "<link href=\"a.css\" ") ++
          (hrefEq (str "style/general.css") ++ str " />")).drop i) = false) ∧
    occursIn (hrefEq (str "style/general.css")) (str " />") = false ∧
    override_theme_links
        ((str "<link href=\"a.css\" ") ++ (hrefEq (str "style/general.css") ++ str " />"))
        { general := some (str "https://cdn/x.css") } =
      (str "<link href=\"a.css\" ") ++ (hrefEq (str "https://cdn/x.css") ++ str " />") :=
  ⟨by decide, by decide, by decide,
   override_theme_links_frame_effect.2.1 (str "<link href=\"a.css\" ") (str " />")
     (str "https://cdn/x.css") (by decide) (by decide) (by decide)⟩

/-- Counterexample to C2: `discover_sections` keeps the glob enumeration
order for two names whose sort keys tie (same numeric prefix, same
lower-cased name) instead of breaking the tie by filename; and the
package implementation's `find_sections` applies no numeric key at all,
putting `10-b.html` before `2-a.html` against the claimed key order. -/
theorem discover_sections_tie_counterexample :
    discover_sections [str "01-b.html", str "01-B.html"] ≠
      discoverSectionsSpec [str "01-b.html", str "01-B.html"] ∧
    discover_sections [str "01-b.html", str "01-B.html"] =
      [str "sections/01-b.html", str "sections/01-B.html"] ∧
    discoverSectionsSpec [str "01-b.html", str "01-B.html"] =
      [str "sections/01-B.html", str "sections/01-b.html"] ∧
    numKey (str "01-b.html") = numKey (str "01-B.html") ∧
    lowerStr (str "01-b.html") = lowerStr (str "01-B.html") ∧
    str "01-B.html" < str "01-b.html" ∧
    find_sections [str "2-a.html", str "10-b.html"] =
      [str "10-b.html", str "2-a.html"] ∧
    numKey (str "2-a.html") < numKey (str "10-b.html") := by
  refine ⟨by decide, by decide, by decide, by decide, by decide, by decide,
    by decide, by decide⟩

/-- C2 (amended): the single-file discovery returns the names sorted by
the key (numeric prefix before `-`/`_` if present, else a large sentinel;
then case-insensitive filename), names with equal keys keeping their
enumeration order (the sort is stable); the package implementation's
`find_sections` returns them in plain case-sensitive filename order with
no key; both order the concrete example as stated. -/
theorem discover_sections_sorted_by_key :
    (∀ names : List Str,
      (insertionSort keyLE names).Pairwise (fun a b => keyLE a b = true) ∧
      (insertionSort keyLE names).Perm names ∧
      discover_sections names =
        (insertionSort keyLE names).map (fun n => str "sections/" ++ n)) ∧
    (∀ names : List Str,
      (find_sections names).Pairwise (fun a b => a ≤ b) ∧
      (find_sections names).Perm names) ∧
    discover_sections [str "02-b.html", str "01-a.html", str "x.html"] =
      [str "sections/01-a.html", str "sections/02-b.html", str "sections/x.html"] ∧
    find_sections [str "02-b.html", str "01-a.html", str "x.html"] =
      [str "01-a.html", str "02-b.html", str "x.html"] := by
  refine ⟨fun names => ⟨?_, insertionSort_perm keyLE names, rfl⟩,
    fun names => ⟨?_, insertionSort_perm _ names⟩, by decide, by decide⟩
  · exact insertionSort_pairwise keyLE keyLE_trans keyLE_total names
  · have h := insertionSort_pairwise (fun a b : Str => decide (a ≤ b))
      (fun a b c hab hbc =>
        decide_eq_true (le_trans (of_decide_eq_true hab) (of_decide_eq_true hbc)))
      (fun a b => by
        rcases le_total a b with h | h
        · exact Or.inl (decide_eq_true h)
        · exact Or.inr (decide_eq_true h)) names
    exact h.imp fun hab => of_decide_eq_true hab

end Scriptura
